import Mathlib

/-!
Verification of the reminder plugin core (src/main.py) via a shallow
embedding.  Python dicts with optional keys become structures with
`Option` fields; the mutable `self.reminder_data` dict, the set of armed
scheduler jobs and the persisted document become an explicit
`PluginState` threaded through each operation; a Python exception that
escapes a function is modelled as `Option`/`Except` failure.  The uuid
generator and the wall clock are passed in as parameters.  Times are
compared in one fixed time zone, exactly as the source compares two
values carrying the same `self.timezone`, so a wall-clock datetime is
embedded as its five parsed fields and ordered through `DateTime.toMin`.
-/

set_option linter.unusedVariables false

/-- A wall-clock instant parsed from the fixed format `YYYY-MM-DD HH:MM`
(the only format the source ever passes to `strptime`). -/
structure DateTime where
  year : Nat
  month : Nat
  day : Nat
  hour : Nat
  minute : Nat
deriving DecidableEq, Inhabited

/-- Linearises a `DateTime` for comparison.  The bases exceed the field
ranges enforced by `parseDateTime` (month `1..12`, day `1..31`, hour
`0..23`, minute `0..59`), so `toMin` is ordered exactly like the
lexicographic field order, which is how two same-zone datetimes compare
in the source. -/
def DateTime.toMin (d : DateTime) : Nat :=
  (((d.year * 13 + d.month) * 32 + d.day) * 24 + d.hour) * 60 + d.minute

/-- A reminder record: the Python dict `{text, id, datetime? | cron?+cron_h?}`.
Optional keys become `Option` fields (`none` = key absent or value `None`). -/
structure Reminder where
  id : Option String := none
  text : String := ""
  datetime : Option String := none
  cron : Option String := none
  cron_h : Option String := none
deriving DecidableEq, Inhabited

/-- The five cron fields handed to the scheduling engine
(src/main.py `_parse_cron_expr`, lines 89-97). -/
structure CronFields where
  minute : String
  hour : String
  day : String
  month : String
  day_of_week : String
deriving DecidableEq, Inhabited

/-- A job trigger: one-shot date trigger or recurring cron trigger. -/
inductive Trigger where
  | date (runDate : DateTime)
  | cron (fields : CronFields)
deriving DecidableEq

/-- An armed scheduler job: `scheduler.add_job(callback, id=.., trigger,
args=[group, record])`. -/
structure Job where
  id : String
  group : String
  trigger : Trigger
  record : Reminder
deriving DecidableEq

/-- The plugin's mutable state: `self.reminder_data` (insertion-ordered
dict, modelled as an association list), the armed jobs of
`self.scheduler`, and the content last written to the persisted JSON
file by `_save_data`. -/
structure PluginState where
  reminderData : List (String × List Reminder)
  jobs : List Job
  savedData : List (String × List Reminder)
deriving DecidableEq

/-- Lookup in the insertion-ordered dict (`d.get(k)` / `k in d`). -/
def dictGet (d : List (String × List Reminder)) (k : String) : Option (List Reminder) :=
  match d with
  | [] => none
  | (k', v) :: rest => if k' = k then some v else dictGet rest k

/-- Python `d.get(k, dflt)`. -/
def dictGetD (d : List (String × List Reminder)) (k : String) (dflt : List Reminder) :
    List Reminder :=
  (dictGet d k).getD dflt

/-- Assignment `d[k] = v`: update in place if the key exists, else insert at the end
(Python dicts keep insertion order). -/
def dictSet (d : List (String × List Reminder)) (k : String) (v : List Reminder) :
    List (String × List Reminder) :=
  match d with
  | [] => [(k, v)]
  | (k', v') :: rest => if k' = k then (k, v) :: rest else (k', v') :: dictSet rest k v

/-- Python truthiness of an optional string argument: `None` and `""` are
falsy. -/
def truthy (s : Option String) : Bool :=
  match s with
  | none => false
  | some str => decide (str ≠ "")

/-- Helper for `splitOnSpace`: accumulate the current field (reversed)
while walking the characters. -/
def splitOnSpaceAux : List Char → List Char → List String
  | [], acc => [String.mk acc.reverse]
  | c :: cs, acc =>
    if c = ' ' then String.mk acc.reverse :: splitOnSpaceAux cs []
    else splitOnSpaceAux cs (c :: acc)

/-- Python's `s.split(" ")`: split on every single space character,
keeping empty fields (`"".split(" ") == [""]`,
`"a  b".split(" ") == ["a", "", "b"]`). -/
def splitOnSpace (s : String) : List String :=
  splitOnSpaceAux s.data []

/-- Model of `_parse_cron_expr` (src/main.py lines 89-97): split on the space
character and index fields `0..4`.  Fewer than five fields raises
`IndexError` (`none`); any extra fields are never read. -/
def parseCronExpr (s : String) : Option CronFields :=
  let fields := splitOnSpace s
  if 5 ≤ fields.length then
    some ⟨fields.getD 0 "", fields.getD 1 "", fields.getD 2 "",
          fields.getD 3 "", fields.getD 4 ""⟩
  else none

/-- Model of `datetime.strptime(s, "%Y-%m-%d %H:%M")`, for the canonical
zero-padded form: sixteen characters, digit groups separated by
`-`, `-`, space, `:`, with the field ranges `strptime` enforces
(calendar-exact day-of-month bounds are abstracted to `1..31`).
`none` models the `ValueError` the source lets escape. -/
def parseDateTime (s : String) : Option DateTime :=
  match s.data with
  | [y1, y2, y3, y4, c1, m1, m2, c2, d1, d2, c3, h1, h2, c4, n1, n2] =>
    if y1.isDigit && y2.isDigit && y3.isDigit && y4.isDigit &&
       (c1 == '-') && m1.isDigit && m2.isDigit && (c2 == '-') &&
       d1.isDigit && d2.isDigit && (c3 == ' ') &&
       h1.isDigit && h2.isDigit && (c4 == ':') && n1.isDigit && n2.isDigit then
      let y := (y1.toNat - 48) * 1000 + (y2.toNat - 48) * 100 +
               (y3.toNat - 48) * 10 + (y4.toNat - 48)
      let mo := (m1.toNat - 48) * 10 + (m2.toNat - 48)
      let da := (d1.toNat - 48) * 10 + (d2.toNat - 48)
      let ho := (h1.toNat - 48) * 10 + (h2.toNat - 48)
      let mi := (n1.toNat - 48) * 10 + (n2.toNat - 48)
      if 1 ≤ mo ∧ mo ≤ 12 ∧ 1 ≤ da ∧ da ≤ 31 ∧ ho ≤ 23 ∧ mi ≤ 59 then
        some ⟨y, mo, da, ho, mi⟩
      else none
    else none
  | _ => none

/-- The filter condition of the `get_upcoming_reminders` comprehension
(src/main.py lines 299-307): `"datetime" not in reminder or
strptime(reminder["datetime"]) >= now`, with the short-circuit `or`
guarding the parse; `none` models the `ValueError` of a malformed
stored datetime. -/
def upcomingPred (now : DateTime) (r : Reminder) : Option Bool :=
  match r.datetime with
  | none => some true
  | some ds => (parseDateTime ds).map (fun dt => decide (now.toMin ≤ dt.toMin))

/-- A list comprehension whose condition may raise: fails if the
condition fails on any element, else keeps the elements on which the
condition is true, in order. -/
def optionFilter (p : Reminder → Option Bool) : List Reminder → Option (List Reminder)
  | [] => some []
  | r :: rs =>
    match p r with
    | none => none
    | some b => (optionFilter p rs).map (fun ys => if b then r :: ys else ys)

/-- Model of `get_upcoming_reminders` (src/main.py lines 293-308): read the
context's bucket (empty if the key is absent), return `[]` for an empty
bucket, else the filtered view.  Pure: the state is only read. -/
def getUpcomingReminders (st : PluginState) (ctx : String) (now : DateTime) :
    Option (List Reminder) :=
  let reminders := dictGetD st.reminderData ctx []
  if reminders.isEmpty then some []
  else optionFilter (upcomingPred now) reminders

/-- The exceptions `_add_single_reminder` can raise: the explicit
`ValueError` for a missing schedule, the `IndexError` escaping
`_parse_cron_expr`, and the `ValueError` escaping `strptime`. -/
inductive AddError where
  | invalidSchedule
  | invalidCron
  | invalidDatetime
deriving DecidableEq

/-- Model of `_add_single_reminder` (src/main.py lines 99-144), faithful to the
source's statement order: insert an empty bucket for an unknown context
id, then validate that at least one schedule kind is given, default the
text, build the record with a fresh id; in the cron branch append the
record and only then parse the cron expression and arm; in the datetime
branch append the record and only then parse the datetime and arm.
Persistence is the caller's job (`set_reminder` flushes separately). -/
def addSingleReminder (st : PluginState) (ctx : String)
    (text datetimeStr cronExpression humanReadableCron : Option String)
    (freshId : String) : PluginState × Except AddError (String × String) :=
  let st1 :=
    if (dictGet st.reminderData ctx).isNone then
      { st with reminderData := dictSet st.reminderData ctx [] }
    else st
  if !truthy cronExpression && !truthy datetimeStr then
    (st1, Except.error AddError.invalidSchedule)
  else
    let t := if truthy text then text.getD "" else "未命名待办事项"
    if truthy cronExpression then
      let ce := cronExpression.getD ""
      let d : Reminder :=
        { id := some freshId, text := t, datetime := none,
          cron := some ce, cron_h := humanReadableCron }
      let st2 :=
        { st1 with reminderData :=
            dictSet st1.reminderData ctx (dictGetD st1.reminderData ctx [] ++ [d]) }
      match parseCronExpr ce with
      | none => (st2, Except.error AddError.invalidCron)
      | some f =>
        let st3 := { st2 with jobs := st2.jobs ++ [⟨freshId, ctx, Trigger.cron f, d⟩] }
        let disp :=
          if truthy humanReadableCron then
            humanReadableCron.getD "" ++ "(Cron: " ++ ce ++ ")"
          else ""
        (st3, Except.ok (t, disp))
    else
      let ds := datetimeStr.getD ""
      let d : Reminder :=
        { id := some freshId, text := t, datetime := some ds,
          cron := none, cron_h := none }
      let st2 :=
        { st1 with reminderData :=
            dictSet st1.reminderData ctx (dictGetD st1.reminderData ctx [] ++ [d]) }
      match parseDateTime ds with
      | none => (st2, Except.error AddError.invalidDatetime)
      | some dt =>
        let st3 := { st2 with jobs := st2.jobs ++ [⟨freshId, ctx, Trigger.date dt, d⟩] }
        (st3, Except.ok (t, ds))

/-- The removal loop of `reminder_rm` (src/main.py lines 341-344):
`for i, r in enumerate(lst): if r.get("id") == job_id: lst.pop(i)`.
Popping at the cursor shifts the list left, so the element after a
removed match is skipped by the advancing cursor — modelled exactly. -/
def popLoop (jobId : Option String) : List Reminder → List Reminder
  | [] => []
  | r :: rs =>
    if r.id = jobId then
      match rs with
      | [] => []
      | s :: ss => s :: popLoop jobId ss
    else r :: popLoop jobId rs

/-- Model of `scheduler.remove_job(job_id)`: `none` models the `JobLookupError`
raised when no armed job carries that id (including `job_id = None`). -/
def removeJob (jobs : List Job) (jobId : Option String) : Option (List Job) :=
  match jobId with
  | none => none
  | some j =>
    if jobs.any (fun jb => jb.id = j) then
      some (jobs.filter (fun jb => decide (jb.id ≠ j)))
    else none

/-- The three observable outcomes of `reminder_rm`: the "没有待办事项"
reply for an empty upcoming view, the "索引越界" reply for a bad
position, or a completed removal carrying the removed record and
whether disarming failed (the warning reply). -/
inductive RmResult where
  | noReminders
  | indexOutOfRange
  | removed (r : Reminder) (disarmFailed : Bool)
deriving DecidableEq

/-- Model of `reminder_rm` (src/main.py lines 327-354): compute the upcoming
view; empty view replies "no reminders"; `index < 1` or
`index > len` replies "index out of range"; otherwise take the
`index`-th upcoming record, pop every bucket record matching its id via
the enumerate/pop loop, try to disarm (a failure is only a warning),
then flush `reminder_data` to the persisted file.  The error branches
perform no mutation and no flush. -/
def reminderRm (st : PluginState) (ctx : String) (now : DateTime) (index : Int) :
    Option (PluginState × RmResult) :=
  match getUpcomingReminders st ctx now with
  | none => none
  | some upcoming =>
    if upcoming.isEmpty then some (st, RmResult.noReminders)
    else if index < 1 ∨ (upcoming.length : Int) < index then
      some (st, RmResult.indexOutOfRange)
    else
      let reminder := upcoming.getD ((index - 1).toNat) default
      let jobId := reminder.id
      let bucket := dictGetD st.reminderData ctx []
      let bucket' := popLoop jobId bucket
      let data' := dictSet st.reminderData ctx bucket'
      match removeJob st.jobs jobId with
      | none =>
        some ({ reminderData := data', jobs := st.jobs, savedData := data' },
              RmResult.removed reminder true)
      | some jobs' =>
        some ({ reminderData := data', jobs := jobs', savedData := data' },
              RmResult.removed reminder false)

/-- Model of `check_is_outdated` (src/main.py lines 74-81): a one-shot record is
outdated when its parsed instant is strictly before now; a record
without a datetime is never outdated.  `none` models the `ValueError`
of a malformed datetime. -/
def checkIsOutdated (r : Reminder) (now : DateTime) : Option Bool :=
  match r.datetime with
  | some ds => (parseDateTime ds).map (fun dt => decide (dt.toMin < now.toMin))
  | none => some false

/-- One iteration of the `_init_scheduler` loop body (src/main.py lines
44-72) on a single record: assign the fresh id when the record lacks
one; a one-shot record is skipped when outdated and otherwise armed
with a date trigger; else a record with a cron field is armed with a
cron trigger; a record with neither arms nothing.  Returns the possibly
id-patched record together with the jobs it armed; `none` models an
exception escaping `__init__`. -/
def initRecord (group : String) (now : DateTime) (fid : String) (r : Reminder) :
    Option (Reminder × List Job) :=
  let id_ := r.id.getD fid
  let r' : Reminder := { r with id := some id_ }
  match r'.datetime with
  | some ds =>
    match checkIsOutdated r' now with
    | none => none
    | some true => some (r', [])
    | some false =>
      match parseDateTime ds with
      | none => none
      | some dt => some (r', [⟨id_, group, Trigger.date dt, r'⟩])
  | none =>
    match r'.cron with
    | some ce =>
      match parseCronExpr ce with
      | none => none
      | some f => some (r', [⟨id_, group, Trigger.cron f, r'⟩])
    | none => some (r', [])

/-- The inner `_init_scheduler` loop over one bucket, threading the
uuid supply counter (a fresh uuid is drawn only for a record lacking an
id). -/
def initBucket (group : String) (now : DateTime) (supply : Nat → String) :
    List Reminder → Nat → Option (List (Reminder × List Job) × Nat)
  | [], n => some ([], n)
  | r :: rs, n =>
    let n' := if r.id.isSome then n else n + 1
    match initRecord group now (supply n) r with
    | none => none
    | some p =>
      match initBucket group now supply rs n' with
      | none => none
      | some (ps, n'') => some (p :: ps, n'')

/-- Model of `_init_scheduler` (src/main.py lines 41-72) over the whole store:
process every bucket in order, producing the id-patched store and the
jobs armed at startup. -/
def initScheduler (now : DateTime) (supply : Nat → String) :
    List (String × List Reminder) → Nat →
    Option (List (String × List Reminder) × List Job × Nat)
  | [], n => some ([], [], n)
  | (g, b) :: rest, n =>
    match initBucket g now supply b n with
    | none => none
    | some (ps, n') =>
      match initScheduler now supply rest n' with
      | none => none
      | some (rest', jobs', n'') =>
        some ((g, ps.map Prod.fst) :: rest', (ps.map Prod.snd).flatten ++ jobs', n'')

/-! ### Concrete states used to witness the theorems -/

/-- The empty plugin state: empty store, no armed jobs, empty persisted
document. -/
def stE : PluginState := ⟨[], [], []⟩

/-- A one-shot record due in 2030. -/
def r1 : Reminder := { id := some "a", text := "Buy milk", datetime := some "2030-01-01 09:00" }

/-- The armed job of `r1`. -/
def j1 : Job := ⟨"a", "c", Trigger.date ⟨2030, 1, 1, 9, 0⟩, r1⟩

/-- A state holding just `r1`, armed. -/
def st1 : PluginState := ⟨[("c", [r1])], [j1], []⟩

/-- A state holding `r1` whose job the scheduler has lost. -/
def st2 : PluginState := ⟨[("c", [r1])], [], []⟩

/-- A fixed "now" before 2030. -/
def now0 : DateTime := ⟨2025, 6, 15, 12, 0⟩

/-- A stored one-shot record whose instant is in the past. -/
def rPast : Reminder := { id := some "a", text := "p", datetime := some "2020-01-01 08:00" }

/-- A stored recurring record that still lacks an id. -/
def rCron : Reminder := { id := none, text := "q", cron := some "0 9 * * 1", cron_h := some "h" }

/-- Record `rCron` after startup assigned it the first fresh id. -/
def rCron0 : Reminder := { rCron with id := some "fresh0" }

/-- A uuid supply for the startup witnesses. -/
def supply0 : Nat → String := fun n => "fresh" ++ toString n

deriving instance DecidableEq for Except

/-! ### Helper lemmas -/

theorem dictGet_dictSet_self (d : List (String × List Reminder)) (k : String)
    (v : List Reminder) : dictGet (dictSet d k v) k = some v := by
  induction d with
  | nil => simp [dictSet, dictGet]
  | cons kv rest ih =>
    obtain ⟨k', v'⟩ := kv
    by_cases h : k' = k
    · simp [dictSet, dictGet, h]
    · simp [dictSet, dictGet, h, ih]

theorem optionFilter_eq_of_isSome (p : Reminder → Option Bool) (l : List Reminder)
    (h : ∀ r ∈ l, (p r).isSome) :
    optionFilter p l = some (l.filter (fun r => (p r).getD false)) := by
  induction l with
  | nil => rfl
  | cons r rs ih =>
    obtain ⟨b, hb⟩ := Option.isSome_iff_exists.mp (h r (List.mem_cons_self r rs))
    have ihs := ih (fun x hx => h x (List.mem_cons_of_mem _ hx))
    cases b with
    | false => simp [optionFilter, hb, ihs, List.filter_cons]
    | true => simp [optionFilter, hb, ihs, List.filter_cons]

theorem isSome_of_optionFilter_eq_some (p : Reminder → Option Bool) (l : List Reminder)
    (l' : List Reminder) (h : optionFilter p l = some l') :
    ∀ r ∈ l, (p r).isSome := by
  induction l generalizing l' with
  | nil => simp
  | cons r rs ih =>
    intro x hx
    unfold optionFilter at h
    cases hp : p r with
    | none => simp [hp] at h
    | some b =>
      rw [hp] at h
      obtain ⟨ys, hys, -⟩ := Option.map_eq_some'.mp h
      rcases List.mem_cons.mp hx with rfl | hx'
      · simp [hp]
      · exact ih ys hys x hx'

theorem optionFilter_eq_some_iff (p : Reminder → Option Bool) (l : List Reminder)
    (l' : List Reminder) :
    optionFilter p l = some l' ↔
      (∀ r ∈ l, (p r).isSome) ∧ l' = l.filter (fun r => (p r).getD false) := by
  constructor
  · intro h
    have hs := isSome_of_optionFilter_eq_some p l l' h
    refine ⟨hs, ?_⟩
    have := optionFilter_eq_of_isSome p l hs
    rw [h] at this
    exact Option.some_inj.mp this
  · rintro ⟨hs, rfl⟩
    exact optionFilter_eq_of_isSome p l hs

theorem getUpcoming_eq_optionFilter (st : PluginState) (ctx : String) (now : DateTime) :
    getUpcomingReminders st ctx now =
      optionFilter (upcomingPred now) (dictGetD st.reminderData ctx []) := by
  unfold getUpcomingReminders
  cases h : dictGetD st.reminderData ctx [] with
  | nil => simp [h, optionFilter]
  | cons r rs => simp [h]

theorem popLoop_no_match (jobId : Option String) (l : List Reminder)
    (h : ∀ r ∈ l, r.id ≠ jobId) : popLoop jobId l = l := by
  induction l with
  | nil => rfl
  | cons r rs ih =>
    have hr : ¬ r.id = jobId := h r (List.mem_cons_self r rs)
    unfold popLoop
    rw [if_neg hr, ih (fun x hx => h x (List.mem_cons_of_mem _ hx))]

theorem popLoop_eq_filter (jobId : Option String) (l : List Reminder)
    (h : (l.map Reminder.id).Nodup) :
    popLoop jobId l = l.filter (fun r => decide (r.id ≠ jobId)) := by
  induction l with
  | nil => rfl
  | cons r rs ih =>
    rw [List.map_cons, List.nodup_cons] at h
    obtain ⟨hr, hrs⟩ := h
    by_cases hid : r.id = jobId
    · have hnom : ∀ x ∈ rs, x.id ≠ jobId := by
        intro x hx hEq
        exact hr (hid ▸ hEq ▸ List.mem_map_of_mem Reminder.id hx)
      cases rs with
      | nil => simp [popLoop, hid]
      | cons s ss =>
        have hs : s.id ≠ jobId := hnom s (List.mem_cons_self s ss)
        have hss : ∀ x ∈ ss, x.id ≠ jobId :=
          fun x hx => hnom x (List.mem_cons_of_mem _ hx)
        have hfil : List.filter (fun r => !decide (r.id = jobId)) ss = ss :=
          List.filter_eq_self.mpr (fun x hx => by simp [hss x hx])
        simp [popLoop, hid, List.filter_cons, hs, popLoop_no_match jobId ss hss, hfil]
    · unfold popLoop
      rw [if_neg hid]
      simp [List.filter_cons, hid, ih hrs]

theorem reminderRm_success (st : PluginState) (ctx : String) (now : DateTime) (k : Int)
    (up : List Reminder)
    (hup : getUpcomingReminders st ctx now = some up)
    (h1 : 1 ≤ k) (h2 : k ≤ (up.length : Int))
    (hnd : ((dictGetD st.reminderData ctx []).map Reminder.id).Nodup) :
    ∃ w st',
      reminderRm st ctx now k =
        some (st', RmResult.removed (up.getD ((k - 1).toNat) default) w) ∧
      st'.reminderData = dictSet st.reminderData ctx
        ((dictGetD st.reminderData ctx []).filter
          (fun r => decide (r.id ≠ (up.getD ((k - 1).toNat) default).id))) ∧
      st'.savedData = st'.reminderData ∧
      (removeJob st.jobs (up.getD ((k - 1).toNat) default).id = none →
        w = true ∧ st'.jobs = st.jobs) ∧
      (∀ js, removeJob st.jobs (up.getD ((k - 1).toNat) default).id = some js →
        w = false ∧ st'.jobs = js) ∧
      getUpcomingReminders st' ctx now =
        some (up.filter (fun r => decide (r.id ≠ (up.getD ((k - 1).toNat) default).id))) := by
  have hupOF := hup
  rw [getUpcoming_eq_optionFilter] at hupOF
  obtain ⟨hsome, hupEq⟩ := (optionFilter_eq_some_iff _ _ _).mp hupOF
  have hlen : 0 < up.length := by omega
  have hEmpty : up.isEmpty = false := by
    cases up with
    | nil => simp at hlen
    | cons a as => rfl
  have hidx : (k - 1).toNat < up.length := by omega
  have htmem : up.getD ((k - 1).toNat) default ∈ up := by
    rw [List.getD_eq_getElem up default hidx]
    exact List.getElem_mem _
  have hsub : ∀ x, x ∈ up → x ∈ dictGetD st.reminderData ctx [] := by
    intro x hx
    rw [hupEq] at hx
    exact List.mem_of_mem_filter hx
  have hcond : ¬ (k < 1 ∨ ((up.length : Int) < k)) := by omega
  have hpop : popLoop (up.getD ((k - 1).toNat) default).id (dictGetD st.reminderData ctx []) =
      (dictGetD st.reminderData ctx []).filter
        (fun r => decide (r.id ≠ (up.getD ((k - 1).toNat) default).id)) :=
    popLoop_eq_filter _ _ hnd
  have hgot : dictGetD (dictSet st.reminderData ctx
      ((dictGetD st.reminderData ctx []).filter
        (fun r => decide (r.id ≠ (up.getD ((k - 1).toNat) default).id)))) ctx [] =
      (dictGetD st.reminderData ctx []).filter
        (fun r => decide (r.id ≠ (up.getD ((k - 1).toNat) default).id)) := by
    unfold dictGetD
    rw [dictGet_dictSet_self]
    rfl
  have hupc' : ∀ jbs : List Job, ∀ sv : List (String × List Reminder),
      getUpcomingReminders
        ⟨dictSet st.reminderData ctx
          ((dictGetD st.reminderData ctx []).filter
            (fun r => decide (r.id ≠ (up.getD ((k - 1).toNat) default).id))), jbs, sv⟩ ctx now =
        some (up.filter (fun r => decide (r.id ≠ (up.getD ((k - 1).toNat) default).id))) := by
    intro jbs sv
    rw [getUpcoming_eq_optionFilter]
    show optionFilter (upcomingPred now)
        (dictGetD (dictSet st.reminderData ctx _) ctx []) = _
    rw [hgot]
    rw [optionFilter_eq_of_isSome _ _
      (fun r hr => hsome r (List.mem_of_mem_filter hr))]
    rw [List.filter_comm, ← hupEq]
  unfold reminderRm
  rw [hup]
  simp only [hEmpty, Bool.false_eq_true, if_false, if_neg hcond]
  cases hrj : removeJob st.jobs (up.getD ((k - 1).toNat) default).id with
  | none =>
    refine ⟨true,
      ⟨dictSet st.reminderData ctx
        ((dictGetD st.reminderData ctx []).filter
          (fun r => decide (r.id ≠ (up.getD ((k - 1).toNat) default).id))), st.jobs,
       dictSet st.reminderData ctx
        ((dictGetD st.reminderData ctx []).filter
          (fun r => decide (r.id ≠ (up.getD ((k - 1).toNat) default).id)))⟩,
      ?_, rfl, rfl, fun _ => ⟨rfl, rfl⟩, ?_, hupc' st.jobs _⟩
    · rw [hpop]
    · intro js hjs
      exact Option.noConfusion hjs
  | some js0 =>
    refine ⟨false,
      ⟨dictSet st.reminderData ctx
        ((dictGetD st.reminderData ctx []).filter
          (fun r => decide (r.id ≠ (up.getD ((k - 1).toNat) default).id))), js0,
       dictSet st.reminderData ctx
        ((dictGetD st.reminderData ctx []).filter
          (fun r => decide (r.id ≠ (up.getD ((k - 1).toNat) default).id)))⟩,
      ?_, rfl, rfl, ?_, ?_, hupc' js0 _⟩
    · rw [hpop]
    · intro hn
      exact Option.noConfusion hn
    · intro js hjs
      cases hjs
      exact ⟨rfl, rfl⟩

/-! ### Claim theorems -/

/-- Claim C1: for every context and every position `k` with
`1 <= k <= len(listUpcoming(ctx))`, `removeByPosition(ctx, k)` returns
the record equal to the k-th element of the upcoming view computed
before the call, removes the record with that id from the full
unfiltered bucket, and afterwards the upcoming view contains no record
with that id.  The id-uniqueness store invariant is the hypothesis
`hnd`. -/
theorem C1_removeByPosition_removes_kth (st : PluginState) (ctx : String) (now : DateTime)
    (k : Int) (up : List Reminder)
    (hup : getUpcomingReminders st ctx now = some up)
    (h1 : 1 ≤ k) (h2 : k ≤ (up.length : Int))
    (hnd : ((dictGetD st.reminderData ctx []).map Reminder.id).Nodup) :
    ∃ w st' up',
      reminderRm st ctx now k =
        some (st', RmResult.removed (up.getD ((k - 1).toNat) default) w) ∧
      dictGetD st'.reminderData ctx [] =
        (dictGetD st.reminderData ctx []).filter
          (fun r => decide (r.id ≠ (up.getD ((k - 1).toNat) default).id)) ∧
      getUpcomingReminders st' ctx now = some up' ∧
      ∀ r ∈ up', r.id ≠ (up.getD ((k - 1).toNat) default).id := by
  obtain ⟨w, st', hrm, hdata, hsaved, hnone, hsome2, hupc⟩ :=
    reminderRm_success st ctx now k up hup h1 h2 hnd
  refine ⟨w, st',
    up.filter (fun r => decide (r.id ≠ (up.getD ((k - 1).toNat) default).id)),
    hrm, ?_, hupc, ?_⟩
  · rw [hdata]
    unfold dictGetD
    rw [dictGet_dictSet_self]
    rfl
  · intro r hr
    have := (List.mem_filter.mp hr).2
    simpa using this

/-- Witness for C1 at a concrete state: removing position 1 of the
one-record store returns that record. -/
theorem C1_witness :
    ∃ w st', reminderRm st1 "c" now0 1 = some (st', RmResult.removed r1 w) := by
  obtain ⟨w, st', up', h, -, -, -⟩ :=
    C1_removeByPosition_removes_kth st1 "c" now0 1 [r1]
      (by decide) (by decide) (by decide) (by decide)
  exact ⟨w, st', h⟩

/-- Claim C5 as stated is false: `reminder_rm` on an empty upcoming
view replies with the distinct "no reminders" notice, not with the
index-out-of-range error. -/
theorem C5_counterexample :
    reminderRm stE "c" now0 1 = some (stE, RmResult.noReminders) ∧
    RmResult.noReminders ≠ RmResult.indexOutOfRange := by decide

/-- Claim C5 (amended): with a nonempty upcoming view, `k = 0` (indeed
any `k < 1`) or `k > len` fails with the index-out-of-range error and
mutates nothing; with an empty upcoming view any `k` fails with the
"no reminders" notice and mutates nothing.  In both conjuncts the
returned state is the input state: registry, armed jobs and persisted
document are untouched. -/
theorem C5_invalid_position_no_mutation (st : PluginState) (ctx : String) (now : DateTime)
    (k : Int) (up : List Reminder)
    (hup : getUpcomingReminders st ctx now = some up) :
    (up = [] → reminderRm st ctx now k = some (st, RmResult.noReminders)) ∧
    (up ≠ [] → (k < 1 ∨ (up.length : Int) < k) →
      reminderRm st ctx now k = some (st, RmResult.indexOutOfRange)) := by
  constructor
  · rintro rfl
    unfold reminderRm
    rw [hup]
    rfl
  · intro hne hk
    have hEmpty : up.isEmpty = false := by
      cases up with
      | nil => cases hne rfl
      | cons a as => rfl
    unfold reminderRm
    rw [hup]
    simp only [hEmpty, Bool.false_eq_true, if_false, if_pos hk]

/-- Witness for the amended C5: position 5 on a one-record view is
rejected without mutation. -/
theorem C5_witness :
    reminderRm st1 "c" now0 5 = some (st1, RmResult.indexOutOfRange) :=
  (C5_invalid_position_no_mutation st1 "c" now0 5 [r1] (by decide)).2
    (by decide) (by decide)

/-- Claim C6: at a valid position, when disarming fails (no armed job
carries the record's id), the removal still deletes the record from
the bucket, still flushes the registry to the persisted document, and
reports the failure only through the warning flag; the armed jobs are
left as they were. -/
theorem C6_disarm_failure_is_warning_only (st : PluginState) (ctx : String) (now : DateTime)
    (k : Int) (up : List Reminder)
    (hup : getUpcomingReminders st ctx now = some up)
    (h1 : 1 ≤ k) (h2 : k ≤ (up.length : Int))
    (hnd : ((dictGetD st.reminderData ctx []).map Reminder.id).Nodup)
    (hfail : removeJob st.jobs (up.getD ((k - 1).toNat) default).id = none) :
    ∃ st',
      reminderRm st ctx now k =
        some (st', RmResult.removed (up.getD ((k - 1).toNat) default) true) ∧
      dictGetD st'.reminderData ctx [] =
        (dictGetD st.reminderData ctx []).filter
          (fun r => decide (r.id ≠ (up.getD ((k - 1).toNat) default).id)) ∧
      st'.savedData = st'.reminderData ∧
      st'.jobs = st.jobs := by
  obtain ⟨w, st', hrm, hdata, hsaved, hnone, hsome2, hupc⟩ :=
    reminderRm_success st ctx now k up hup h1 h2 hnd
  obtain ⟨hw, hjobs⟩ := hnone hfail
  subst hw
  refine ⟨st', hrm, ?_, hsaved, hjobs⟩
  rw [hdata]
  unfold dictGetD
  rw [dictGet_dictSet_self]
  rfl

/-- Witness for C6 at a concrete state whose scheduler lost the job:
the removal completes with the warning flag set. -/
theorem C6_witness :
    ∃ st', reminderRm st2 "c" now0 1 = some (st', RmResult.removed r1 true) ∧
      st'.savedData = st'.reminderData := by
  obtain ⟨st', h, -, hsv, -⟩ :=
    C6_disarm_failure_is_warning_only st2 "c" now0 1 [r1]
      (by decide) (by decide) (by decide) (by decide) (by decide)
  exact ⟨st', h, hsv⟩

/-- Claim C2: the upcoming view is exactly the stored-order filter of
the bucket keeping the records with no datetime key (recurring) and
the one-shot records whose parsed instant is `>= now`; the state is
only read (the operation returns no new state), so the bucket and the
store are unchanged and overdue one-shot records stay in storage.  The
hypothesis `hwf` is that every stored datetime parses (otherwise the
source raises instead of returning). -/
theorem C2_upcoming_is_filtered_view (st : PluginState) (ctx : String) (now : DateTime)
    (hwf : ∀ r ∈ dictGetD st.reminderData ctx [], (upcomingPred now r).isSome) :
    getUpcomingReminders st ctx now =
      some ((dictGetD st.reminderData ctx []).filter
        (fun r => (upcomingPred now r).getD false)) ∧
    ∀ r : Reminder, ((upcomingPred now r).getD false = true ↔
      (r.datetime = none ∨ ∃ ds dt, r.datetime = some ds ∧ parseDateTime ds = some dt ∧
        now.toMin ≤ dt.toMin)) := by
  constructor
  · rw [getUpcoming_eq_optionFilter]
    exact optionFilter_eq_of_isSome _ _ hwf
  · intro r
    unfold upcomingPred
    cases hd : r.datetime with
    | none => simp
    | some ds =>
      cases hp : parseDateTime ds with
      | none => simp [hp]
      | some dt0 => simp [hp]

/-- Witness for C2 at a concrete state: the view over the one-record
store is the filter of its bucket. -/
theorem C2_witness :
    getUpcomingReminders st1 "c" now0 =
      some ((dictGetD st1.reminderData "c" []).filter
        (fun r => (upcomingPred now0 r).getD false)) :=
  (C2_upcoming_is_filtered_view st1 "c" now0 (by decide)).1

/-- Claim C3 as stated is false: giving BOTH a datetime and cron fields
does not raise `InvalidSchedule` — the cron branch silently wins and
the add succeeds. -/
theorem C3_counterexample :
    (addSingleReminder stE "c" (some "t") (some "2030-01-01 09:00")
        (some "0 9 * * 1") none "i").2 = Except.ok ("t", "") ∧
    (addSingleReminder stE "c" (some "t") (some "2030-01-01 09:00")
        (some "0 9 * * 1") none "i").2 ≠ Except.error AddError.invalidSchedule := by
  decide

/-- Claim C3 (amended): `_add_single_reminder` raises `InvalidSchedule`
exactly when NEITHER a (truthy) datetime nor (truthy) cron fields are
given — when both are given the cron branch is taken and this error is
not raised — and in the failing case the context bucket's contents are
unchanged. -/
theorem C3_invalidSchedule_iff_neither (st : PluginState) (ctx : String)
    (text dts ce hrc : Option String) (fid : String) :
    ((addSingleReminder st ctx text dts ce hrc fid).2 =
        Except.error AddError.invalidSchedule ↔
      (truthy ce = false ∧ truthy dts = false)) ∧
    (truthy ce = false → truthy dts = false →
      dictGetD (addSingleReminder st ctx text dts ce hrc fid).1.reminderData ctx [] =
        dictGetD st.reminderData ctx []) := by
  unfold addSingleReminder
  cases hce : truthy ce with
  | true =>
    simp only [hce, Bool.not_true, Bool.false_and, Bool.false_eq_true, if_false, if_true]
    constructor
    · constructor
      · intro h
        exfalso
        cases hpc : parseCronExpr (ce.getD "") with
        | none => rw [hpc] at h; simp at h
        | some f => rw [hpc] at h; simp at h
      · rintro ⟨h1, -⟩
        cases h1
    · intro h1
      cases h1
  | false =>
    cases hdts : truthy dts with
    | true =>
      simp only [hce, hdts, Bool.not_true, Bool.not_false, Bool.true_and, Bool.false_eq_true,
        if_false, if_true]
      constructor
      · constructor
        · intro h
          exfalso
          cases hpd : parseDateTime (dts.getD "") with
          | none => rw [hpd] at h; simp at h
          | some dt => rw [hpd] at h; simp at h
        · rintro ⟨-, h2⟩
          cases h2
      · intro _ h2
        cases h2
    | false =>
      simp only [hce, hdts, Bool.not_false, Bool.true_and, if_true]
      refine ⟨by simp, fun _ _ => ?_⟩
      cases hg : dictGet st.reminderData ctx with
      | none =>
        simp only [hg, Option.isNone_none, if_true]
        show dictGetD (dictSet st.reminderData ctx []) ctx [] = _
        unfold dictGetD
        rw [dictGet_dictSet_self, hg]
        rfl
      | some b =>
        simp only [hg, Option.isNone_some, Bool.false_eq_true, if_false]

/-- Witness for the amended C3: a fully missing schedule fails with
`InvalidSchedule` and leaves the bucket contents unchanged. -/
theorem C3_witness :
    dictGetD (addSingleReminder stE "c" (some "t") none none none "i").1.reminderData "c" [] =
      dictGetD stE.reminderData "c" [] :=
  (C3_invalidSchedule_iff_neither stE "c" (some "t") none none none "i").2
    (by decide) (by decide)

/-- Claim C4 is right about the intent but the code has no rollback:
on a malformed datetime the record is appended to the bucket, the
parse then raises, no job is armed — the bucket is left holding the
unarmed record, violating the stated atomicity. -/
theorem C4_no_rollback_on_arm_failure :
    (addSingleReminder stE "c" (some "t") (some "2030-99-99 99:99") none none "i").2
        = Except.error AddError.invalidDatetime ∧
    (addSingleReminder stE "c" (some "t") (some "2030-99-99 99:99") none none "i").1.reminderData
        = [("c", [{ id := some "i", text := "t", datetime := some "2030-99-99 99:99" }])] ∧
    (addSingleReminder stE "c" (some "t") (some "2030-99-99 99:99") none none "i").1.jobs
        = [] := by
  decide

/-- Claim C9: on a successful add the returned display time is the
datetime string itself for a one-shot schedule; for a recurring
schedule it is the label followed by "(Cron: fields)" when a truthy
label was given, and empty otherwise. -/
theorem C9_display_time (st : PluginState) (ctx : String)
    (text dts ce hrc : Option String) (fid td disp : String)
    (h : (addSingleReminder st ctx text dts ce hrc fid).2 = Except.ok (td, disp)) :
    (truthy ce = false → ∀ s, dts = some s → disp = s) ∧
    (truthy ce = true → truthy hrc = true →
      disp = hrc.getD "" ++ "(Cron: " ++ ce.getD "" ++ ")") ∧
    (truthy ce = true → truthy hrc = false → disp = "") := by
  unfold addSingleReminder at h
  cases hce : truthy ce with
  | true =>
    rw [hce] at h
    simp only [Bool.not_true, Bool.false_and, Bool.false_eq_true, if_false, if_true] at h
    cases hpc : parseCronExpr (ce.getD "") with
    | none => rw [hpc] at h; simp at h
    | some f =>
      rw [hpc] at h
      simp only [Except.ok.injEq, Prod.mk.injEq] at h
      obtain ⟨-, hdisp⟩ := h
      cases hh : truthy hrc with
      | true =>
        rw [hh] at hdisp
        simp only [if_true] at hdisp
        exact ⟨fun hf => (by cases hf), fun _ _ => hdisp.symm, fun _ hf => (by cases hf)⟩
      | false =>
        rw [hh] at hdisp
        simp only [Bool.false_eq_true, if_false] at hdisp
        exact ⟨fun hf => (by cases hf), fun _ hf => (by cases hf), fun _ _ => hdisp.symm⟩
  | false =>
    rw [hce] at h
    cases hdts : truthy dts with
    | false =>
      rw [hdts] at h
      simp at h
    | true =>
      rw [hdts] at h
      simp only [Bool.not_false, Bool.true_and, Bool.false_eq_true, if_false, if_true] at h
      cases hpd : parseDateTime (dts.getD "") with
      | none => rw [hpd] at h; simp at h
      | some dt =>
        rw [hpd] at h
        simp only [Except.ok.injEq, Prod.mk.injEq] at h
        obtain ⟨-, hdisp⟩ := h
        refine ⟨fun _ s hs => ?_, fun hf => (by cases hf), fun hf => (by cases hf)⟩
        subst hs
        simp_all

/-- Witness for C9: the spec's scenario — cron `0 9 * * 1` with label
`每周一9点` displays as `每周一9点(Cron: 0 9 * * 1)`. -/
theorem C9_witness :
    ("每周一9点(Cron: 0 9 * * 1)" : String) =
      (some "每周一9点" : Option String).getD "" ++ "(Cron: " ++
        (some "0 9 * * 1" : Option String).getD "" ++ ")" :=
  (C9_display_time stE "c" (some "t") none (some "0 9 * * 1") (some "每周一9点") "w1"
    "t" "每周一9点(Cron: 0 9 * * 1)" (by decide)).2.1 (by decide) (by decide)

/-- Claim C10: the empty-bucket insertion for an unknown context id
happens before schedule validation, so an add that fails with
`InvalidSchedule` on an unknown context leaves that id mapped to the
empty sequence in the in-memory store. -/
theorem C10_error_path_inserts_empty_bucket (st : PluginState) (ctx : String)
    (text : Option String) (fid : String)
    (h : dictGet st.reminderData ctx = none) :
    (addSingleReminder st ctx text none none none fid).2 =
        Except.error AddError.invalidSchedule ∧
    dictGet (addSingleReminder st ctx text none none none fid).1.reminderData ctx =
        some [] := by
  unfold addSingleReminder
  rw [h]
  exact ⟨rfl, dictGet_dictSet_self _ _ _⟩

/-- Witness for C10 on the empty state. -/
theorem C10_witness :
    (addSingleReminder stE "c" (some "t") none none none "i").2 =
        Except.error AddError.invalidSchedule ∧
    dictGet (addSingleReminder stE "c" (some "t") none none none "i").1.reminderData "c" =
        some [] :=
  C10_error_path_inserts_empty_bucket stE "c" (some "t") "i" (by decide)

theorem checkIsOutdated_eval (r : Reminder) (now : DateTime) (ds : String) (dt : DateTime)
    (hd : r.datetime = some ds) (hp : parseDateTime ds = some dt) :
    checkIsOutdated r now = some (decide (dt.toMin < now.toMin)) := by
  unfold checkIsOutdated
  rw [hd]
  show Option.map (fun dt => decide (dt.toMin < now.toMin)) (parseDateTime ds) = _
  rw [hp]
  rfl

theorem checkIsOutdated_eval_bad (r : Reminder) (now : DateTime) (ds : String)
    (hd : r.datetime = some ds) (hp : parseDateTime ds = none) :
    checkIsOutdated r now = none := by
  unfold checkIsOutdated
  rw [hd]
  show Option.map (fun dt => decide (dt.toMin < now.toMin)) (parseDateTime ds) = _
  rw [hp]
  rfl

theorem initRecord_spec (g : String) (now : DateTime) (fid : String) (r r' : Reminder)
    (js : List Job) (h : initRecord g now fid r = some (r', js)) :
    r'.id.isSome = true ∧
    r'.text = r.text ∧ r'.datetime = r.datetime ∧ r'.cron = r.cron ∧ r'.cron_h = r.cron_h ∧
    (∀ i, r.id = some i → r'.id = some i) ∧
    (∀ ds dt, r.datetime = some ds → parseDateTime ds = some dt →
      (dt.toMin < now.toMin → js = [] ∧ upcomingPred now r' = some false) ∧
      (now.toMin ≤ dt.toMin → js = [⟨r'.id.getD "", g, Trigger.date dt, r'⟩])) ∧
    (r.datetime = none → ∀ ce f, r.cron = some ce → parseCronExpr ce = some f →
      js = [⟨r'.id.getD "", g, Trigger.cron f, r'⟩]) := by
  simp only [initRecord] at h
  cases hd : r.datetime with
  | some ds =>
    rw [hd] at h
    cases hp : parseDateTime ds with
    | none =>
      rw [checkIsOutdated_eval_bad
        { id := some (r.id.getD fid), text := r.text, datetime := some ds,
          cron := r.cron, cron_h := r.cron_h } now ds rfl hp] at h
      simp at h
    | some dt0 =>
      rw [checkIsOutdated_eval
        { id := some (r.id.getD fid), text := r.text, datetime := some ds,
          cron := r.cron, cron_h := r.cron_h } now ds dt0 rfl hp] at h
      by_cases hout : dt0.toMin < now.toMin
      · rw [decide_eq_true hout] at h
        simp only [Option.some.injEq, Prod.mk.injEq] at h
        obtain ⟨hr', hjs⟩ := h
        subst hr'
        subst hjs
        refine ⟨rfl, rfl, rfl, rfl, rfl, fun i hi => by rw [hi]; rfl, ?_, ?_⟩
        · intro ds' dt' hds' hdt'
          cases hds'
          rw [hp] at hdt'
          cases hdt'
          constructor
          · intro _
            refine ⟨rfl, ?_⟩
            have hnle : ¬ now.toMin ≤ dt0.toMin := by omega
            simp [upcomingPred, hp, hnle]
          · intro hle
            omega
        · intro hnone
          cases hnone
      · rw [decide_eq_false hout] at h
        simp only [hp, Option.some.injEq, Prod.mk.injEq] at h
        obtain ⟨hr', hjs⟩ := h
        subst hr'
        subst hjs
        refine ⟨rfl, rfl, rfl, rfl, rfl, fun i hi => by rw [hi]; rfl, ?_, ?_⟩
        · intro ds' dt' hds' hdt'
          cases hds'
          rw [hp] at hdt'
          cases hdt'
          exact ⟨fun hlt => absurd hlt hout, fun _ => rfl⟩
        · intro hnone
          cases hnone
  | none =>
    rw [hd] at h
    cases hc : r.cron with
    | some ce =>
      rw [hc] at h
      cases hpc : parseCronExpr ce with
      | none =>
        simp [hpc] at h
      | some f0 =>
        simp only [hpc, Option.some.injEq, Prod.mk.injEq] at h
        obtain ⟨hr', hjs⟩ := h
        subst hr'
        subst hjs
        refine ⟨rfl, rfl, rfl, rfl, rfl, fun i hi => by rw [hi]; rfl, ?_, ?_⟩
        · intro ds' dt' hds' hdt'
          cases hds'
        · intro _ ce' f hce' hf
          cases hce'
          rw [hpc] at hf
          cases hf
          rfl
    | none =>
      rw [hc] at h
      simp only [Option.some.injEq, Prod.mk.injEq] at h
      obtain ⟨hr', hjs⟩ := h
      subst hr'
      subst hjs
      refine ⟨rfl, rfl, rfl, rfl, rfl, fun i hi => by rw [hi]; rfl, ?_, ?_⟩
      · intro ds' dt' hds' hdt'
        cases hds'
      · intro _ ce' f hce' hf
        cases hce'

/-- Claim C7: startup reconciliation.  For a bucket processed by the
`_init_scheduler` loop, every record is kept in place and related to
its processed form: a missing id is assigned (an existing id is kept
and the other fields are untouched); a one-shot record whose parsed
instant is strictly in the past arms nothing and is excluded from the
upcoming view while remaining in the output bucket; a one-shot record
whose instant is not past arms exactly its date-trigger job; a
recurring record arms exactly its cron-trigger job. -/
theorem C7_startup_reconciliation (g : String) (now : DateTime) (supply : Nat → String)
    (b : List Reminder) (n : Nat) (out : List (Reminder × List Job)) (n' : Nat)
    (h : initBucket g now supply b n = some (out, n')) :
    List.Forall₂ (fun r p =>
      (Prod.fst p).id.isSome = true ∧
      (Prod.fst p).text = r.text ∧ (Prod.fst p).datetime = r.datetime ∧
      (Prod.fst p).cron = r.cron ∧ (Prod.fst p).cron_h = r.cron_h ∧
      (∀ i, r.id = some i → (Prod.fst p).id = some i) ∧
      (∀ ds dt, r.datetime = some ds → parseDateTime ds = some dt →
        (dt.toMin < now.toMin →
          Prod.snd p = [] ∧ upcomingPred now (Prod.fst p) = some false) ∧
        (now.toMin ≤ dt.toMin →
          Prod.snd p = [⟨(Prod.fst p).id.getD "", g, Trigger.date dt, Prod.fst p⟩])) ∧
      (r.datetime = none → ∀ ce f, r.cron = some ce → parseCronExpr ce = some f →
        Prod.snd p = [⟨(Prod.fst p).id.getD "", g, Trigger.cron f, Prod.fst p⟩]))
      b out := by
  induction b generalizing n out n' with
  | nil =>
    simp only [initBucket, Option.some.injEq, Prod.mk.injEq] at h
    obtain ⟨hout, -⟩ := h
    rw [← hout]
    exact List.Forall₂.nil
  | cons r rs ih =>
    simp only [initBucket] at h
    cases hir : initRecord g now (supply n) r with
    | none =>
      rw [hir] at h
      simp at h
    | some p =>
      rw [hir] at h
      cases hb : initBucket g now supply rs (if r.id.isSome then n else n + 1) with
      | none =>
        rw [hb] at h
        simp at h
      | some q =>
        obtain ⟨ps, n''⟩ := q
        rw [hb] at h
        simp only [Option.some.injEq, Prod.mk.injEq] at h
        obtain ⟨hout, -⟩ := h
        rw [← hout]
        obtain ⟨r', js⟩ := p
        exact List.Forall₂.cons (initRecord_spec g now (supply n) r r' js hir)
          (ih _ _ _ hb)

/-- Witness for C7 at a concrete bucket holding an overdue one-shot
record (already carrying an id) and a recurring record lacking one:
both end with an id, and the overdue record is excluded from the
upcoming view. -/
theorem C7_witness :
    rPast.id.isSome = true ∧ rCron0.id.isSome = true ∧
    upcomingPred now0 rPast = some false := by
  have h :=
    C7_startup_reconciliation "g" now0 supply0 [rPast, rCron] 0
      [(rPast, []),
       (rCron0, [⟨"fresh0", "g", Trigger.cron ⟨"0", "9", "*", "*", "1"⟩, rCron0⟩])] 1
      (by decide)
  cases h with
  | cons hp htl =>
    cases htl with
    | cons hq hnil =>
      refine ⟨hp.1, hq.1, ?_⟩
      exact ((hp.2.2.2.2.2.2.1 "2020-01-01 08:00" ⟨2020, 1, 1, 8, 0⟩
        (by decide) (by decide)).1 (by decide)).2

/-- Claim C8 as stated is false for the "more than five fields" half:
`_parse_cron_expr` only fails on fewer than five fields; a six-field
expression parses fine, the extra field being silently ignored. -/
theorem C8_counterexample :
    parseCronExpr "0 9 * * 1 6" = some ⟨"0", "9", "*", "*", "1"⟩ ∧
    parseCronExpr "0 9 * * 1 6" ≠ none := by decide

/-- Claim C8 (amended): the expression is split on the space character;
fewer than five fields is an error (the `IndexError` the scheduler
call site lets escape), while five or more fields succeed with exactly
the first five fields, any extras ignored. -/
theorem C8_cron_field_parsing (s : String) :
    (parseCronExpr s = none ↔ (splitOnSpace s).length < 5) ∧
    (5 ≤ (splitOnSpace s).length →
      parseCronExpr s = some ⟨(splitOnSpace s).getD 0 "", (splitOnSpace s).getD 1 "",
        (splitOnSpace s).getD 2 "", (splitOnSpace s).getD 3 "",
        (splitOnSpace s).getD 4 ""⟩) := by
  simp only [parseCronExpr]
  by_cases h : 5 ≤ (splitOnSpace s).length
  · rw [if_pos h]
    refine ⟨⟨fun hh => Option.noConfusion hh, fun hh => by omega⟩, fun _ => rfl⟩
  · rw [if_neg h]
    exact ⟨⟨fun _ => by omega, fun _ => rfl⟩, fun hh => absurd hh h⟩

/-- Witness for the amended C8: a four-field expression is rejected. -/
theorem C8_witness : parseCronExpr "0 9 * *" = none :=
  (C8_cron_field_parsing "0 9 * *").1.mpr (by decide)
